import Mathlib

set_option maxRecDepth 100000

/-!
# DataLogger firmware: shallow embedding and verification

Shallow embedding of the Arduino `DataLogger.ino` firmware (latest source
variant: interrupt-driven 10 Hz trigger, single CSV file kept open, amortized
sync every 10 cycles, per-line differential display redraw).

Analog quantities (`float` in the source) are modelled as rationals `ℚ`.
The 32-bit `unsigned long elapsed` counter is a natural number reduced
modulo `2^32` at each increment.  The `uint8_t cycles` counter is a natural
number reduced modulo `256` at each increment, mirroring the C semantics.
File contents are modelled as the list of strings written to the file.
-/

namespace DataLogger

/-- One INA219 acquisition: the three scalar reads performed by
`ina219values` (shunt voltage in mV, bus voltage in V, current in mA). -/
structure Sample where
  shunt_mV : ℚ
  bus_V : ℚ
  current_mA : ℚ
deriving DecidableEq

/-- The global mutable state of the firmware: the volatile flag and tick
counter shared with the ISR, the INA219-derived measurement globals, the
per-line display caches (`oldvolt`, `oldcurr`, `oldpow`, `oldegy`), the
SD flush counter `cycles`, and the observable effect logs.

`drawsVolt`/`drawsCurr`/`drawsPow`/`drawsEgy` count the physical redraws of
each display line (the `displayline` calls).  `log` is the content of
`MEAS.csv` as the list of strings written to it; `times` mirrors the
timestamp field of each appended CSV row; `syncs` counts the
`measurFile.sync()` invocations issued by `writeFile`. -/
structure St where
  triggered : Bool
  elapsed : ℕ
  shuntvoltage : ℚ
  busvoltage : ℚ
  current_mA : ℚ
  loadvoltage : ℚ
  power_mW : ℚ
  energy_mWh : ℚ
  oldvolt : ℚ
  oldcurr : ℚ
  oldpow : ℚ
  oldegy : ℚ
  drawsVolt : ℕ
  drawsCurr : ℕ
  drawsPow : ℕ
  drawsEgy : ℕ
  cycles : ℕ
  syncs : ℕ
  log : List String
  times : List ℕ
deriving DecidableEq

/-- The CSV header line written once by `setup()`
(`measurFile.print("Time,Voltage,Current\n")`). -/
def header : String := "Time,Voltage,Current\n"

/-- Initial state after `setup()`: flag down, `elapsed = 0`, all measurement
globals and display caches `0.0`, flush counter `0`, and the log file
freshly created/truncated holding only the header line. -/
def st0 : St :=
  { triggered := false
    elapsed := 0
    shuntvoltage := 0
    busvoltage := 0
    current_mA := 0
    loadvoltage := 0
    power_mW := 0
    energy_mWh := 0
    oldvolt := 0
    oldcurr := 0
    oldpow := 0
    oldegy := 0
    drawsVolt := 0
    drawsCurr := 0
    drawsPow := 0
    drawsEgy := 0
    cycles := 0
    syncs := 0
    log := [header]
    times := [] }

/-- `ISR(TIMER1_COMPA_vect)`: `triggered = true; elapsed += 100;` with
32-bit wraparound on `elapsed`. -/
def isr (st : St) : St :=
  { st with triggered := true, elapsed := (st.elapsed + 100) % 2 ^ 32 }

/-- Power of the load computed from one sample, as in `ina219values`:
`loadvoltage = busvoltage + shuntvoltage/1000; power = loadvoltage * current`. -/
def powerOf (s : Sample) : ℚ :=
  (s.bus_V + s.shunt_mV / 1000) * s.current_mA

/-- `ina219values()`: store the three reads, derive load voltage and power,
and accumulate energy as `energy_mWh += power_mW / 36000.0`
(the source comment reads `t = 0.1s / 3600`: a constant nominal 100 ms
period is assumed). -/
def ina219values (s : Sample) (st : St) : St :=
  let load := s.bus_V + s.shunt_mV / 1000
  let pw := load * s.current_mA
  { st with
    shuntvoltage := s.shunt_mV
    busvoltage := s.bus_V
    current_mA := s.current_mA
    loadvoltage := load
    power_mW := pw
    energy_mWh := st.energy_mWh + pw / 36000 }

/-- Left-pad a string with copies of a character up to a minimum width. -/
def padLeft (w : ℕ) (c : Char) (s : String) : String :=
  if s.length < w then String.mk (List.replicate (w - s.length) c) ++ s else s

/-- Model of avr-libc `dtostrf(val, width, prec, buf)`: render `x` with
`prec` fractional digits (rounding the magnitude half-up), right-justified
with spaces to a minimum field width `width` (longer strings are not
truncated).  The scaled magnitude `⌊|x|·10^prec + 1/2⌋` is computed on the
numerator/denominator pair of `x`. -/
def dtostrf (x : ℚ) (width prec : ℕ) : String :=
  let scale := 10 ^ prec
  let n : ℕ := (2 * x.num.natAbs * scale + x.den) / (2 * x.den)
  let core : String :=
    (if x.num < 0 then "-" else "") ++ toString (n / scale) ++ "." ++
      padLeft prec '0' (toString (n % scale))
  padLeft width ' ' core

/-- Rendering of `elapsed` by `sprintf`'s `%ld`: the 32-bit value printed
as a signed long (two's complement). -/
def printLong (n : ℕ) : String :=
  let m : ℕ := n % 2 ^ 32
  if m < 2 ^ 31 then toString m else toString ((m : ℤ) - 2 ^ 32)

/-- One CSV data row as formatted by `writeFile`:
`sprintf(buf, "%ld,%s,%s\n", elapsed, voltbuf, curbuf)` with
`dtostrf(loadvoltage, 6, 3, voltbuf)` and `dtostrf(current_mA, 6, 3, curbuf)`. -/
def csvLine (elapsed : ℕ) (volt cur : ℚ) : String :=
  printLong elapsed ++ "," ++ dtostrf volt 6 3 ++ "," ++ dtostrf cur 6 3 ++ "\n"

/-- Modelled from the spec (§6 External Interfaces): the spec's claimed row
format `<uint32 ms>,<%8.3f>,<%8.3f>\n`, i.e. the voltage and current fields
right-justified to a minimum width of 8 instead of the source's 6.  Used
only to compare the spec's wording against the source's `csvLine`. -/
def specCsvLine (elapsed : ℕ) (volt cur : ℚ) : String :=
  printLong elapsed ++ "," ++ dtostrf volt 8 3 ++ "," ++ dtostrf cur 8 3 ++ "\n"

/-- Modelled from the spec (§4.3/§8): the spec's energy recurrence
`energyAccum = Σ power_mW * dt_ms / 3_600_000` over a sequence of
(power, measured-wall-clock-delta) pairs.  Used only to compare the spec's
formula against the source's accumulation. -/
def specEnergy (pairs : List (ℚ × ℚ)) : ℚ :=
  pairs.foldl (fun e pd => e + pd.1 * pd.2 / 3600000) 0

/-- `writeFile()` (latest source variant): format one CSV row from the
current globals and append it (`measurFile.write(buf)`); issue
`measurFile.sync()` when `cycles >= 9`; then `cycles++; cycles %= 10;`.
`sdOk` models whether the medium is present and the file handle usable
(the file is opened once in `setup()`; the earlier `writeFile` variant in
the repository re-opens per cycle under `if(measurFile.open(...))`): when
it is false the append writes nothing and the file is unchanged. -/
def writeFile (sdOk : Bool) (st : St) : St :=
  let line := csvLine st.elapsed st.loadvoltage st.current_mA
  let st1 :=
    if sdOk then
      { st with log := st.log ++ [line], times := st.times ++ [st.elapsed] }
    else st
  let st2 := if 9 ≤ st1.cycles then { st1 with syncs := st1.syncs + 1 } else st1
  { st2 with cycles := (st2.cycles + 1) % 256 % 10 }

/-- The four differential display updates in `loop()`
(lines 102–123): for each metric, redraw its line and update its cache
only when the value differs from the cached previous value. -/
def displayUpdates (st : St) : St :=
  let s1 :=
    if st.loadvoltage ≠ st.oldvolt then
      { st with drawsVolt := st.drawsVolt + 1, oldvolt := st.loadvoltage }
    else st
  let s2 :=
    if s1.current_mA ≠ s1.oldcurr then
      { s1 with drawsCurr := s1.drawsCurr + 1, oldcurr := s1.current_mA }
    else s1
  let s3 :=
    if s2.power_mW ≠ s2.oldpow then
      { s2 with drawsPow := s2.drawsPow + 1, oldpow := s2.power_mW }
    else s2
  if s3.energy_mWh ≠ s3.oldegy then
    { s3 with drawsEgy := s3.drawsEgy + 1, oldegy := s3.energy_mWh }
  else s3

/-- The work of one accepted cycle, in source order:
`ina219values(); writeFile();` then the display updates. -/
def cycleBody (s : Sample) (sdOk : Bool) (st : St) : St :=
  displayUpdates (writeFile sdOk (ina219values s st))

/-- One `loop()` poll: if `triggered` is set, run the cycle's work and
reset the flag at the end of the body (line 126); otherwise do nothing. -/
def loop (s : Sample) (sdOk : Bool) (st : St) : St :=
  if st.triggered then { cycleBody s sdOk st with triggered := false } else st

/-- One `loop()` poll during which a timer tick fires while the cycle is in
progress: the ISR runs between the cycle's work and the trailing
`triggered = false` (line 126), which executes last.  (A tick at any point
between the line-87 observation and line 126 is erased the same way,
because the clear is the final write to the flag.) -/
def loopTickDuring (s : Sample) (sdOk : Bool) (st : St) : St :=
  if st.triggered then { isr (cycleBody s sdOk st) with triggered := false } else st

/-- Events of the system: a timer tick (ISR firing) or one `loop()` poll
with the sample the INA219 would return and the SD availability. -/
inductive Ev where
  | tick : Ev
  | cycle : Sample → Bool → Ev
deriving DecidableEq

/-- Small-step semantics: apply one event to the state. -/
def step (e : Ev) (st : St) : St :=
  match e with
  | Ev.tick => isr st
  | Ev.cycle s sdOk => loop s sdOk st

/-- Run a trace of events from a state. -/
def run (evs : List Ev) (st : St) : St :=
  evs.foldl (fun st e => step e st) st

/-- Number of timer ticks in a trace. -/
def countTicks : List Ev → ℕ
  | [] => 0
  | Ev.tick :: r => countTicks r + 1
  | Ev.cycle _ _ :: r => countTicks r

/-- Canonical trace in which every cycle is accepted: before the i-th
sample's poll, `gᵢ` timer ticks fire (so the wall-clock delta before that
cycle is `100·gᵢ` ms); with every `gᵢ ≥ 1` each poll finds the flag set. -/
def traceOf : List (ℕ × Sample) → List Ev
  | [] => []
  | (g, s) :: r => List.replicate g Ev.tick ++ (Ev.cycle s true :: traceOf r)

/-! ## Projection lemmas for the individual operations -/

theorem isr_triggered (st : St) : (isr st).triggered = true := rfl

theorem isr_elapsed (st : St) : (isr st).elapsed = (st.elapsed + 100) % 2 ^ 32 := rfl

theorem writeFile_cycles (b : Bool) (st : St) :
    (writeFile b st).cycles = (st.cycles + 1) % 256 % 10 := by
  simp only [writeFile]; split_ifs <;> rfl

theorem writeFile_syncs (b : Bool) (st : St) :
    (writeFile b st).syncs = st.syncs + if 9 ≤ st.cycles then 1 else 0 := by
  simp only [writeFile]; split_ifs <;> simp_all

theorem writeFile_log (b : Bool) (st : St) :
    (writeFile b st).log =
      st.log ++ if b then [csvLine st.elapsed st.loadvoltage st.current_mA] else [] := by
  simp only [writeFile]; split_ifs <;> simp_all

theorem writeFile_times (b : Bool) (st : St) :
    (writeFile b st).times = st.times ++ if b then [st.elapsed] else [] := by
  simp only [writeFile]; split_ifs <;> simp_all

theorem writeFile_frame (b : Bool) (st : St) :
    (writeFile b st).triggered = st.triggered ∧
    (writeFile b st).elapsed = st.elapsed ∧
    (writeFile b st).loadvoltage = st.loadvoltage ∧
    (writeFile b st).current_mA = st.current_mA ∧
    (writeFile b st).power_mW = st.power_mW ∧
    (writeFile b st).energy_mWh = st.energy_mWh ∧
    (writeFile b st).oldvolt = st.oldvolt ∧
    (writeFile b st).oldcurr = st.oldcurr ∧
    (writeFile b st).oldpow = st.oldpow ∧
    (writeFile b st).oldegy = st.oldegy ∧
    (writeFile b st).drawsVolt = st.drawsVolt ∧
    (writeFile b st).drawsCurr = st.drawsCurr ∧
    (writeFile b st).drawsPow = st.drawsPow ∧
    (writeFile b st).drawsEgy = st.drawsEgy := by
  simp only [writeFile]; split_ifs <;> simp_all

theorem displayUpdates_olds (st : St) :
    (displayUpdates st).oldvolt = st.loadvoltage ∧
    (displayUpdates st).oldcurr = st.current_mA ∧
    (displayUpdates st).oldpow = st.power_mW ∧
    (displayUpdates st).oldegy = st.energy_mWh := by
  simp only [displayUpdates]; split_ifs <;> simp_all

theorem displayUpdates_draws (st : St) :
    (displayUpdates st).drawsVolt =
      st.drawsVolt + (if st.loadvoltage ≠ st.oldvolt then 1 else 0) ∧
    (displayUpdates st).drawsCurr =
      st.drawsCurr + (if st.current_mA ≠ st.oldcurr then 1 else 0) ∧
    (displayUpdates st).drawsPow =
      st.drawsPow + (if st.power_mW ≠ st.oldpow then 1 else 0) ∧
    (displayUpdates st).drawsEgy =
      st.drawsEgy + (if st.energy_mWh ≠ st.oldegy then 1 else 0) := by
  simp only [displayUpdates]; split_ifs <;> simp_all

theorem displayUpdates_frame (st : St) :
    (displayUpdates st).triggered = st.triggered ∧
    (displayUpdates st).elapsed = st.elapsed ∧
    (displayUpdates st).shuntvoltage = st.shuntvoltage ∧
    (displayUpdates st).busvoltage = st.busvoltage ∧
    (displayUpdates st).loadvoltage = st.loadvoltage ∧
    (displayUpdates st).current_mA = st.current_mA ∧
    (displayUpdates st).power_mW = st.power_mW ∧
    (displayUpdates st).energy_mWh = st.energy_mWh ∧
    (displayUpdates st).cycles = st.cycles ∧
    (displayUpdates st).syncs = st.syncs ∧
    (displayUpdates st).log = st.log ∧
    (displayUpdates st).times = st.times := by
  simp only [displayUpdates]; split_ifs <;> simp_all

theorem ina219values_fields (s : Sample) (st : St) :
    (ina219values s st).loadvoltage = s.bus_V + s.shunt_mV / 1000 ∧
    (ina219values s st).power_mW = (s.bus_V + s.shunt_mV / 1000) * s.current_mA ∧
    (ina219values s st).energy_mWh = st.energy_mWh + powerOf s / 36000 ∧
    (ina219values s st).current_mA = s.current_mA :=
  ⟨rfl, rfl, rfl, rfl⟩

theorem ina219values_frame (s : Sample) (st : St) :
    (ina219values s st).triggered = st.triggered ∧
    (ina219values s st).elapsed = st.elapsed ∧
    (ina219values s st).oldvolt = st.oldvolt ∧
    (ina219values s st).oldcurr = st.oldcurr ∧
    (ina219values s st).oldpow = st.oldpow ∧
    (ina219values s st).oldegy = st.oldegy ∧
    (ina219values s st).drawsVolt = st.drawsVolt ∧
    (ina219values s st).drawsCurr = st.drawsCurr ∧
    (ina219values s st).drawsPow = st.drawsPow ∧
    (ina219values s st).drawsEgy = st.drawsEgy ∧
    (ina219values s st).cycles = st.cycles ∧
    (ina219values s st).syncs = st.syncs ∧
    (ina219values s st).log = st.log ∧
    (ina219values s st).times = st.times :=
  ⟨rfl, rfl, rfl, rfl, rfl, rfl, rfl, rfl, rfl, rfl, rfl, rfl, rfl, rfl⟩

/-! ## Lemmas about one accepted cycle -/

theorem cycleBody_triggered (s : Sample) (b : Bool) (st : St) :
    (cycleBody s b st).triggered = st.triggered := by
  unfold cycleBody
  rw [(displayUpdates_frame _).1, (writeFile_frame _ _).1, (ina219values_frame _ _).1]

theorem cycleBody_elapsed (s : Sample) (b : Bool) (st : St) :
    (cycleBody s b st).elapsed = st.elapsed := by
  unfold cycleBody
  rw [(displayUpdates_frame _).2.1, (writeFile_frame _ _).2.1,
    (ina219values_frame _ _).2.1]

theorem cycleBody_cycles (s : Sample) (b : Bool) (st : St) :
    (cycleBody s b st).cycles = (st.cycles + 1) % 256 % 10 := by
  unfold cycleBody
  rw [(displayUpdates_frame _).2.2.2.2.2.2.2.2.1, writeFile_cycles,
    (ina219values_frame _ _).2.2.2.2.2.2.2.2.2.2.1]

theorem cycleBody_syncs (s : Sample) (b : Bool) (st : St) :
    (cycleBody s b st).syncs = st.syncs + if 9 ≤ st.cycles then 1 else 0 := by
  unfold cycleBody
  rw [(displayUpdates_frame _).2.2.2.2.2.2.2.2.2.1, writeFile_syncs,
    (ina219values_frame _ _).2.2.2.2.2.2.2.2.2.2.2.1,
    (ina219values_frame _ _).2.2.2.2.2.2.2.2.2.2.1]

theorem cycleBody_energy (s : Sample) (b : Bool) (st : St) :
    (cycleBody s b st).energy_mWh = st.energy_mWh + powerOf s / 36000 := by
  unfold cycleBody
  rw [(displayUpdates_frame _).2.2.2.2.2.2.2.1, (writeFile_frame _ _).2.2.2.2.2.1,
    (ina219values_fields _ _).2.2.1]

theorem cycleBody_log (s : Sample) (b : Bool) (st : St) :
    (cycleBody s b st).log =
      st.log ++
        if b then [csvLine st.elapsed (s.bus_V + s.shunt_mV / 1000) s.current_mA]
        else [] := by
  unfold cycleBody
  rw [(displayUpdates_frame _).2.2.2.2.2.2.2.2.2.2.1, writeFile_log,
    (ina219values_frame _ _).2.2.2.2.2.2.2.2.2.2.2.2.1,
    (ina219values_frame _ _).2.1, (ina219values_fields _ _).1,
    (ina219values_fields _ _).2.2.2]

theorem cycleBody_times (s : Sample) (b : Bool) (st : St) :
    (cycleBody s b st).times = st.times ++ if b then [st.elapsed] else [] := by
  unfold cycleBody
  rw [(displayUpdates_frame _).2.2.2.2.2.2.2.2.2.2.2, writeFile_times,
    (ina219values_frame _ _).2.2.2.2.2.2.2.2.2.2.2.2.2, (ina219values_frame _ _).2.1]

/-- The draw counters produced by one accepted cycle, as functions of the
incoming sample and caches; they do not depend on SD availability. -/
theorem cycleBody_draws (s : Sample) (b : Bool) (st : St) :
    (cycleBody s b st).drawsVolt =
      st.drawsVolt + (if s.bus_V + s.shunt_mV / 1000 ≠ st.oldvolt then 1 else 0) ∧
    (cycleBody s b st).drawsCurr =
      st.drawsCurr + (if s.current_mA ≠ st.oldcurr then 1 else 0) ∧
    (cycleBody s b st).drawsPow =
      st.drawsPow + (if powerOf s ≠ st.oldpow then 1 else 0) ∧
    (cycleBody s b st).drawsEgy =
      st.drawsEgy +
        (if st.energy_mWh + powerOf s / 36000 ≠ st.oldegy then 1 else 0) := by
  have hw := writeFile_frame b (ina219values s st)
  have hi := ina219values_frame s st
  have hd := displayUpdates_draws (writeFile b (ina219values s st))
  unfold cycleBody
  rw [hd.1, hd.2.1, hd.2.2.1, hd.2.2.2, hw.2.2.1, hw.2.2.2.1, hw.2.2.2.2.1,
    hw.2.2.2.2.2.1, hw.2.2.2.2.2.2.1, hw.2.2.2.2.2.2.2.1, hw.2.2.2.2.2.2.2.2.1,
    hw.2.2.2.2.2.2.2.2.2.1, hw.2.2.2.2.2.2.2.2.2.2.1, hw.2.2.2.2.2.2.2.2.2.2.2.1,
    hw.2.2.2.2.2.2.2.2.2.2.2.2.1, hw.2.2.2.2.2.2.2.2.2.2.2.2.2]
  rw [hi.2.2.1, hi.2.2.2.1, hi.2.2.2.2.1, hi.2.2.2.2.2.1, hi.2.2.2.2.2.2.1,
    hi.2.2.2.2.2.2.2.1, hi.2.2.2.2.2.2.2.2.1, hi.2.2.2.2.2.2.2.2.2.1]
  exact ⟨rfl, rfl, rfl, rfl⟩

/-- The display caches after one accepted cycle hold exactly the metric
values just computed from the sample. -/
theorem cycleBody_olds (s : Sample) (b : Bool) (st : St) :
    (cycleBody s b st).oldvolt = s.bus_V + s.shunt_mV / 1000 ∧
    (cycleBody s b st).oldcurr = s.current_mA ∧
    (cycleBody s b st).oldpow = powerOf s ∧
    (cycleBody s b st).oldegy = st.energy_mWh + powerOf s / 36000 := by
  have hw := writeFile_frame b (ina219values s st)
  have hd := displayUpdates_olds (writeFile b (ina219values s st))
  unfold cycleBody
  rw [hd.1, hd.2.1, hd.2.2.1, hd.2.2.2, hw.2.2.1, hw.2.2.2.1, hw.2.2.2.2.1,
    hw.2.2.2.2.2.1]
  exact ⟨rfl, rfl, rfl, rfl⟩

/-! ## Lemmas about the loop and traces -/

theorem loop_of_triggered {st : St} (h : st.triggered = true) (s : Sample)
    (b : Bool) : loop s b st = { cycleBody s b st with triggered := false } := by
  simp [loop, h]

theorem loop_of_not_triggered {st : St} (h : st.triggered = false) (s : Sample)
    (b : Bool) : loop s b st = st := by
  simp [loop, h]

theorem loopTickDuring_of_triggered {st : St} (h : st.triggered = true)
    (s : Sample) (b : Bool) :
    loopTickDuring s b st = { isr (cycleBody s b st) with triggered := false } := by
  simp [loopTickDuring, h]

theorem isr_log (st : St) : (isr st).log = st.log := rfl

theorem loop_log_of_triggered {st : St} (h : st.triggered = true) (s : Sample)
    (b : Bool) :
    (loop s b st).log =
      st.log ++
        if b then [csvLine st.elapsed (s.bus_V + s.shunt_mV / 1000) s.current_mA]
        else [] := by
  rw [loop_of_triggered h]
  show (cycleBody s b st).log = _
  exact cycleBody_log s b st

theorem loop_times_of_triggered {st : St} (h : st.triggered = true) (s : Sample)
    (b : Bool) :
    (loop s b st).times = st.times ++ if b then [st.elapsed] else [] := by
  rw [loop_of_triggered h]
  show (cycleBody s b st).times = _
  exact cycleBody_times s b st

theorem loop_elapsed_of_triggered {st : St} (h : st.triggered = true) (s : Sample)
    (b : Bool) : (loop s b st).elapsed = st.elapsed := by
  rw [loop_of_triggered h]
  show (cycleBody s b st).elapsed = _
  exact cycleBody_elapsed s b st

theorem loop_triggered_false {st : St} (h : st.triggered = true) (s : Sample)
    (b : Bool) : (loop s b st).triggered = false := by
  rw [loop_of_triggered h]

theorem loop_cycles_of_triggered {st : St} (h : st.triggered = true) (s : Sample)
    (b : Bool) : (loop s b st).cycles = (st.cycles + 1) % 256 % 10 := by
  rw [loop_of_triggered h]
  show (cycleBody s b st).cycles = _
  exact cycleBody_cycles s b st

theorem loop_syncs_of_triggered {st : St} (h : st.triggered = true) (s : Sample)
    (b : Bool) :
    (loop s b st).syncs = st.syncs + if 9 ≤ st.cycles then 1 else 0 := by
  rw [loop_of_triggered h]
  show (cycleBody s b st).syncs = _
  exact cycleBody_syncs s b st

theorem loop_energy_of_triggered {st : St} (h : st.triggered = true) (s : Sample)
    (b : Bool) :
    (loop s b st).energy_mWh = st.energy_mWh + powerOf s / 36000 := by
  rw [loop_of_triggered h]
  show (cycleBody s b st).energy_mWh = _
  exact cycleBody_energy s b st

theorem run_nil (st : St) : run [] st = st := rfl

theorem run_cons (e : Ev) (evs : List Ev) (st : St) :
    run (e :: evs) st = run evs (step e st) := rfl

theorem run_append (l₁ l₂ : List Ev) (st : St) :
    run (l₁ ++ l₂) st = run l₂ (run l₁ st) := by
  simp [run, List.foldl_append]

/-- Effect of `g ≥ 1` consecutive timer ticks: the flag ends up set and
`elapsed` advances by `100·g` (modulo `2^32`); nothing else changes. -/
theorem run_ticks_pos (g : ℕ) (hg : 1 ≤ g) (st : St) :
    run (List.replicate g Ev.tick) st =
      { st with triggered := true, elapsed := (st.elapsed + 100 * g) % 2 ^ 32 } := by
  induction g generalizing st with
  | zero => omega
  | succ n ih =>
    rcases Nat.eq_zero_or_pos n with hn | hn
    · subst hn
      simp [List.replicate, run, step, isr]
    · rw [List.replicate_succ, run_cons, ih hn]
      show _ = _
      simp only [step, isr]
      congr 1
      rw [Nat.mod_add_mod]
      ring_nf

/-! ## C9: derived metrics are pure, stateless functions of the sample -/

/-- C9: the derived-metrics step computes
`loadVoltage_V = busVoltage_V + shuntVoltage_mV / 1000` and
`power_mW = loadVoltage_V * current_mA` as pure functions of the current
sample alone (the prior state does not influence them), and on the sample
(busVoltage_V = 5, shuntVoltage_mV = 20, current_mA = 100) it yields
loadVoltage_V = 5.02 = 251/50 and power_mW = 502. -/
theorem c9_derived_metrics_pure :
    (∀ (s : Sample) (st : St),
        (ina219values s st).loadvoltage = s.bus_V + s.shunt_mV / 1000 ∧
        (ina219values s st).power_mW = (s.bus_V + s.shunt_mV / 1000) * s.current_mA) ∧
    (∀ (s : Sample) (st st' : St),
        (ina219values s st).loadvoltage = (ina219values s st').loadvoltage ∧
        (ina219values s st).power_mW = (ina219values s st').power_mW) ∧
    (∀ st : St,
        (ina219values ⟨20, 5, 100⟩ st).loadvoltage = 251 / 50 ∧
        (ina219values ⟨20, 5, 100⟩ st).power_mW = 502) := by
  refine ⟨fun s st => ⟨rfl, rfl⟩, fun s st st' => ⟨rfl, rfl⟩, fun st => ⟨?_, ?_⟩⟩
  · show (5 : ℚ) + 20 / 1000 = 251 / 50
    norm_num
  · show ((5 : ℚ) + 20 / 1000) * 100 = 502
    norm_num

/-! ## C5: what the timer interrupt handler touches -/

/-- C5 counterexample: the ISR does not leave every program variable other
than the flag unchanged — it also writes the shared counter `elapsed`
(`elapsed += 100;`, line 137): from the initial state, `elapsed` goes from
0 to 100. -/
theorem c5_counterexample_isr_writes_elapsed :
    st0.elapsed = 0 ∧ (isr st0).elapsed = 100 ∧ (isr st0).elapsed ≠ st0.elapsed := by
  refine ⟨rfl, ?_, ?_⟩ <;> decide

/-- C5 (amended): the timer interrupt handler sets the trigger flag AND
increments the shared millisecond counter `elapsed` by 100 (modulo 2^32);
it writes no other program variable (all remaining fields of the state are
left unchanged) and, being a pure state update, performs no bus I/O and no
allocation. -/
theorem c5_isr_frame :
    ∀ st : St,
      (isr st).triggered = true ∧
      (isr st).elapsed = (st.elapsed + 100) % 2 ^ 32 ∧
      (isr st).shuntvoltage = st.shuntvoltage ∧
      (isr st).busvoltage = st.busvoltage ∧
      (isr st).current_mA = st.current_mA ∧
      (isr st).loadvoltage = st.loadvoltage ∧
      (isr st).power_mW = st.power_mW ∧
      (isr st).energy_mWh = st.energy_mWh ∧
      (isr st).oldvolt = st.oldvolt ∧
      (isr st).oldcurr = st.oldcurr ∧
      (isr st).oldpow = st.oldpow ∧
      (isr st).oldegy = st.oldegy ∧
      (isr st).drawsVolt = st.drawsVolt ∧
      (isr st).drawsCurr = st.drawsCurr ∧
      (isr st).drawsPow = st.drawsPow ∧
      (isr st).drawsEgy = st.drawsEgy ∧
      (isr st).cycles = st.cycles ∧
      (isr st).syncs = st.syncs ∧
      (isr st).log = st.log ∧
      (isr st).times = st.times :=
  fun _ =>
    ⟨rfl, rfl, rfl, rfl, rfl, rfl, rfl, rfl, rfl, rfl, rfl, rfl, rfl, rfl, rfl,
      rfl, rfl, rfl, rfl, rfl⟩

/-! ## C8: monotonicity of the energy accumulator -/

/-- C8: the energy accumulator is monotonically non-decreasing: a single
derived-metrics step with non-negative computed power does not decrease
`energy_mWh`, and over any event trace whose cycle samples all have
non-negative computed power the accumulator never decreases (in particular
it is never reset). -/
theorem c8_energy_monotone :
    (∀ (s : Sample) (st : St),
        0 ≤ powerOf s → st.energy_mWh ≤ (ina219values s st).energy_mWh) ∧
    (∀ (evs : List Ev) (st : St),
        (∀ (s : Sample) (b : Bool), Ev.cycle s b ∈ evs → 0 ≤ powerOf s) →
        st.energy_mWh ≤ (run evs st).energy_mWh) := by
  have hstep : ∀ (s : Sample) (st : St),
      0 ≤ powerOf s → st.energy_mWh ≤ (ina219values s st).energy_mWh := by
    intro s st h
    rw [(ina219values_fields s st).2.2.1]
    have : (0 : ℚ) ≤ powerOf s / 36000 := by positivity
    linarith
  refine ⟨hstep, ?_⟩
  intro evs
  induction evs with
  | nil => intro st _; exact le_refl _
  | cons e r ih =>
    intro st h
    rw [run_cons]
    have hr : ∀ (s : Sample) (b : Bool), Ev.cycle s b ∈ r → 0 ≤ powerOf s := by
      intro s b hm; exact h s b (List.mem_cons_of_mem _ hm)
    refine le_trans ?_ (ih (step e st) hr)
    cases e with
    | tick => exact le_of_eq rfl
    | cycle s b =>
      show st.energy_mWh ≤ (loop s b st).energy_mWh
      by_cases ht : st.triggered = true
      · rw [loop_of_triggered ht]
        show st.energy_mWh ≤ (cycleBody s b st).energy_mWh
        rw [cycleBody_energy]
        have h0 : 0 ≤ powerOf s := h s b (List.mem_cons_self _ _)
        have : (0 : ℚ) ≤ powerOf s / 36000 := by positivity
        linarith
      · rw [loop_of_not_triggered (by simpa using ht)]

/-- C8 witness: the trace-level monotonicity statement applied to the
concrete one-tick, one-cycle trace with a zero-power sample. -/
theorem c8_witness :
    st0.energy_mWh ≤ (run [Ev.tick, Ev.cycle ⟨0, 0, 0⟩ true] st0).energy_mWh :=
  c8_energy_monotone.2 [Ev.tick, Ev.cycle ⟨0, 0, 0⟩ true] st0 (by
    intro s b hm
    simp only [List.mem_cons, List.not_mem_nil, or_false] at hm
    rcases hm with hm | hm
    · exact absurd hm (by simp)
    · rw [show s = ⟨0, 0, 0⟩ from congrArg (fun e => match e with
        | Ev.cycle s _ => s
        | Ev.tick => s) hm]
      norm_num [powerOf])

/-! ## C6: differential display redraw with per-metric caches -/

/-- C6: for each of the four displayed metrics, the display step updates the
cache to the value just rendered; it redraws a metric's line exactly when
the value differs from the cached previous value (each counter's increment
depends only on that metric's value and cache, so the four regions are
independent); and rendering a fresh value in two consecutive cycles
performs exactly one physical redraw of that metric's line — the first. -/
theorem c6_display_diff_redraw :
    (∀ st : St,
        (displayUpdates st).oldvolt = st.loadvoltage ∧
        (displayUpdates st).oldcurr = st.current_mA ∧
        (displayUpdates st).oldpow = st.power_mW ∧
        (displayUpdates st).oldegy = st.energy_mWh) ∧
    (∀ st : St,
        (displayUpdates st).drawsVolt =
          st.drawsVolt + (if st.loadvoltage ≠ st.oldvolt then 1 else 0) ∧
        (displayUpdates st).drawsCurr =
          st.drawsCurr + (if st.current_mA ≠ st.oldcurr then 1 else 0) ∧
        (displayUpdates st).drawsPow =
          st.drawsPow + (if st.power_mW ≠ st.oldpow then 1 else 0) ∧
        (displayUpdates st).drawsEgy =
          st.drawsEgy + (if st.energy_mWh ≠ st.oldegy then 1 else 0)) ∧
    (∀ (st : St) (v : ℚ), v ≠ st.oldvolt →
        (displayUpdates { st with loadvoltage := v }).drawsVolt = st.drawsVolt + 1 ∧
        (displayUpdates (displayUpdates { st with loadvoltage := v })).drawsVolt =
          st.drawsVolt + 1) ∧
    (∀ (st : St) (v : ℚ), v ≠ st.oldcurr →
        (displayUpdates { st with current_mA := v }).drawsCurr = st.drawsCurr + 1 ∧
        (displayUpdates (displayUpdates { st with current_mA := v })).drawsCurr =
          st.drawsCurr + 1) ∧
    (∀ (st : St) (v : ℚ), v ≠ st.oldpow →
        (displayUpdates { st with power_mW := v }).drawsPow = st.drawsPow + 1 ∧
        (displayUpdates (displayUpdates { st with power_mW := v })).drawsPow =
          st.drawsPow + 1) ∧
    (∀ (st : St) (v : ℚ), v ≠ st.oldegy →
        (displayUpdates { st with energy_mWh := v }).drawsEgy = st.drawsEgy + 1 ∧
        (displayUpdates (displayUpdates { st with energy_mWh := v })).drawsEgy =
          st.drawsEgy + 1) := by
  refine ⟨displayUpdates_olds, displayUpdates_draws, ?_, ?_, ?_, ?_⟩
  · intro st v hv
    have h1 := (displayUpdates_draws { st with loadvoltage := v }).1
    rw [if_pos hv] at h1
    refine ⟨h1, ?_⟩
    have h2 := (displayUpdates_draws (displayUpdates { st with loadvoltage := v })).1
    rw [(displayUpdates_frame { st with loadvoltage := v }).2.2.2.2.1,
      (displayUpdates_olds { st with loadvoltage := v }).1] at h2
    simpa [h1] using h2
  · intro st v hv
    have h1 := (displayUpdates_draws { st with current_mA := v }).2.1
    rw [if_pos hv] at h1
    refine ⟨h1, ?_⟩
    have h2 := (displayUpdates_draws (displayUpdates { st with current_mA := v })).2.1
    rw [(displayUpdates_frame { st with current_mA := v }).2.2.2.2.2.1,
      (displayUpdates_olds { st with current_mA := v }).2.1] at h2
    simpa [h1] using h2
  · intro st v hv
    have h1 := (displayUpdates_draws { st with power_mW := v }).2.2.1
    rw [if_pos hv] at h1
    refine ⟨h1, ?_⟩
    have h2 := (displayUpdates_draws (displayUpdates { st with power_mW := v })).2.2.1
    rw [(displayUpdates_frame { st with power_mW := v }).2.2.2.2.2.2.1,
      (displayUpdates_olds { st with power_mW := v }).2.2.1] at h2
    simpa [h1] using h2
  · intro st v hv
    have h1 := (displayUpdates_draws { st with energy_mWh := v }).2.2.2
    rw [if_pos hv] at h1
    refine ⟨h1, ?_⟩
    have h2 := (displayUpdates_draws (displayUpdates { st with energy_mWh := v })).2.2.2
    rw [(displayUpdates_frame { st with energy_mWh := v }).2.2.2.2.2.2.2.1,
      (displayUpdates_olds { st with energy_mWh := v }).2.2.2] at h2
    simpa [h1] using h2

/-- C6 witness: concrete application — from the initial state, rendering the
fresh load-voltage value 1 in two consecutive display steps performs exactly
one redraw of the voltage line. -/
theorem c6_witness :
    (displayUpdates { st0 with loadvoltage := 1 }).drawsVolt = st0.drawsVolt + 1 ∧
    (displayUpdates (displayUpdates { st0 with loadvoltage := 1 })).drawsVolt =
      st0.drawsVolt + 1 :=
  c6_display_diff_redraw.2.2.1 st0 1 (by norm_num [st0])

/-! ## C2: flag consumption discipline of the main loop -/

/-- C2 (amended): the main loop observes the flag true and clears it only
AFTER the cycle's work — the clear (line 126) is the last statement of the
body.  Consequently a tick that fires while a cycle is in progress is erased
by the trailing clear: after that cycle the flag is false, and a subsequent
poll runs no further cycle (it leaves the state unchanged).  Ticks firing
during a cycle are dropped, not queued. -/
theorem c2_flag_cleared_after_work :
    (∀ (s : Sample) (b : Bool) (st : St), st.triggered = true →
        loop s b st = { cycleBody s b st with triggered := false }) ∧
    (∀ (s : Sample) (b : Bool) (st : St), st.triggered = true →
        (loopTickDuring s b st).triggered = false ∧
        ∀ (s' : Sample) (b' : Bool),
          loop s' b' (loopTickDuring s b st) = loopTickDuring s b st) := by
  constructor
  · intro s b st h
    exact loop_of_triggered h s b
  · intro s b st h
    have h1 : (loopTickDuring s b st).triggered = false := by
      rw [loopTickDuring_of_triggered h]
    exact ⟨h1, fun s' b' => loop_of_not_triggered h1 s' b'⟩

/-- C2 counterexample: from the initial state, a tick raises the flag and a
cycle starts; a second tick fires while that cycle is in progress.  Contrary
to the claim, after the cycle the flag is FALSE (the trailing
`triggered = false` erased the mid-cycle tick), and the next poll runs zero
further cycles (the state is left unchanged) instead of exactly one. -/
theorem c2_counterexample_tick_lost :
    (loopTickDuring ⟨0, 0, 0⟩ true (isr st0)).triggered = false ∧
    loop ⟨0, 0, 0⟩ true (loopTickDuring ⟨0, 0, 0⟩ true (isr st0)) =
      loopTickDuring ⟨0, 0, 0⟩ true (isr st0) := by
  have h1 : (loopTickDuring ⟨0, 0, 0⟩ true (isr st0)).triggered = false := by
    rw [loopTickDuring_of_triggered rfl]
  exact ⟨h1, loop_of_not_triggered h1 _ _⟩

/-- C2 witness: the amended theorem applied at the concrete post-tick
initial state. -/
theorem c2_witness :
    (loopTickDuring ⟨1, 1, 1⟩ false (isr st0)).triggered = false ∧
    ∀ (s' : Sample) (b' : Bool),
      loop s' b' (loopTickDuring ⟨1, 1, 1⟩ false (isr st0)) =
        loopTickDuring ⟨1, 1, 1⟩ false (isr st0) :=
  c2_flag_cleared_after_work.2 ⟨1, 1, 1⟩ false (isr st0) rfl

/-! ## C7: storage failure only skips the append -/

/-- C7: when the medium is absent / the file is unusable (`sdOk = false`),
the CSV append for that cycle is skipped (file contents and timestamp list
unchanged) while the rest of the cycle still runs: energy accumulates,
the display update runs exactly as it would with storage available (same
redraw counters and caches), the cycle completes with the flag cleared, and
on the next accepted cycle with the medium available the append happens
(logging is retried naturally).  The step is a total function — no crash —
and `writeFile` is invoked exactly once per cycle, so there is no same-cycle
retry. -/
theorem c7_sd_absent_skips_append :
    ∀ (s : Sample) (st : St), st.triggered = true →
      (loop s false st).log = st.log ∧
      (loop s false st).times = st.times ∧
      (loop s false st).triggered = false ∧
      (loop s false st).energy_mWh = st.energy_mWh + powerOf s / 36000 ∧
      ((loop s false st).drawsVolt = (loop s true st).drawsVolt ∧
        (loop s false st).drawsCurr = (loop s true st).drawsCurr ∧
        (loop s false st).drawsPow = (loop s true st).drawsPow ∧
        (loop s false st).drawsEgy = (loop s true st).drawsEgy) ∧
      ((loop s false st).oldvolt = (loop s true st).oldvolt ∧
        (loop s false st).oldcurr = (loop s true st).oldcurr ∧
        (loop s false st).oldpow = (loop s true st).oldpow ∧
        (loop s false st).oldegy = (loop s true st).oldegy) ∧
      (∀ s' : Sample,
          (loop s' true (isr (loop s false st))).log =
            st.log ++ [csvLine ((st.elapsed + 100) % 2 ^ 32)
              (s'.bus_V + s'.shunt_mV / 1000) s'.current_mA]) := by
  intro s st h
  have hf := loop_of_triggered h s false
  have ht := loop_of_triggered h s true
  refine ⟨?_, ?_, ?_, ?_, ?_, ?_, ?_⟩
  · rw [hf]
    show (cycleBody s false st).log = st.log
    rw [cycleBody_log]
    simp
  · rw [hf]
    show (cycleBody s false st).times = st.times
    rw [cycleBody_times]
    simp
  · rw [hf]
  · rw [hf]
    show (cycleBody s false st).energy_mWh = st.energy_mWh + powerOf s / 36000
    exact cycleBody_energy s false st
  · rw [hf, ht]
    exact ⟨by rw [show ({ cycleBody s false st with triggered := false } : St).drawsVolt
          = (cycleBody s false st).drawsVolt from rfl,
        show ({ cycleBody s true st with triggered := false } : St).drawsVolt
          = (cycleBody s true st).drawsVolt from rfl,
        (cycleBody_draws s false st).1, (cycleBody_draws s true st).1],
      by rw [show ({ cycleBody s false st with triggered := false } : St).drawsCurr
          = (cycleBody s false st).drawsCurr from rfl,
        show ({ cycleBody s true st with triggered := false } : St).drawsCurr
          = (cycleBody s true st).drawsCurr from rfl,
        (cycleBody_draws s false st).2.1, (cycleBody_draws s true st).2.1],
      by rw [show ({ cycleBody s false st with triggered := false } : St).drawsPow
          = (cycleBody s false st).drawsPow from rfl,
        show ({ cycleBody s true st with triggered := false } : St).drawsPow
          = (cycleBody s true st).drawsPow from rfl,
        (cycleBody_draws s false st).2.2.1, (cycleBody_draws s true st).2.2.1],
      by rw [show ({ cycleBody s false st with triggered := false } : St).drawsEgy
          = (cycleBody s false st).drawsEgy from rfl,
        show ({ cycleBody s true st with triggered := false } : St).drawsEgy
          = (cycleBody s true st).drawsEgy from rfl,
        (cycleBody_draws s false st).2.2.2, (cycleBody_draws s true st).2.2.2]⟩
  · rw [hf, ht]
    exact ⟨by rw [show ({ cycleBody s false st with triggered := false } : St).oldvolt
          = (cycleBody s false st).oldvolt from rfl,
        show ({ cycleBody s true st with triggered := false } : St).oldvolt
          = (cycleBody s true st).oldvolt from rfl,
        (cycleBody_olds s false st).1, (cycleBody_olds s true st).1],
      by rw [show ({ cycleBody s false st with triggered := false } : St).oldcurr
          = (cycleBody s false st).oldcurr from rfl,
        show ({ cycleBody s true st with triggered := false } : St).oldcurr
          = (cycleBody s true st).oldcurr from rfl,
        (cycleBody_olds s false st).2.1, (cycleBody_olds s true st).2.1],
      by rw [show ({ cycleBody s false st with triggered := false } : St).oldpow
          = (cycleBody s false st).oldpow from rfl,
        show ({ cycleBody s true st with triggered := false } : St).oldpow
          = (cycleBody s true st).oldpow from rfl,
        (cycleBody_olds s false st).2.2.1, (cycleBody_olds s true st).2.2.1],
      by rw [show ({ cycleBody s false st with triggered := false } : St).oldegy
          = (cycleBody s false st).oldegy from rfl,
        show ({ cycleBody s true st with triggered := false } : St).oldegy
          = (cycleBody s true st).oldegy from rfl,
        (cycleBody_olds s false st).2.2.2, (cycleBody_olds s true st).2.2.2]⟩
  · intro s'
    rewrite [loop_log_of_triggered (isr_triggered (loop s false st)) s' true]
    rewrite [isr_log, isr_elapsed]
    rewrite [loop_log_of_triggered h s false, loop_elapsed_of_triggered h s false]
    simp

/-- C7 witness: concrete application — from the post-tick initial state with
the medium absent, the file is unchanged by the cycle. -/
theorem c7_witness :
    (loop ⟨0, 0, 0⟩ false (isr st0)).log = (isr st0).log :=
  (c7_sd_absent_skips_append ⟨0, 0, 0⟩ (isr st0) rfl).1

/-! ## C3: flush counter range and sync cadence -/

theorem step_tick (st : St) : step Ev.tick st = isr st := rfl

theorem step_cycle (s : Sample) (b : Bool) (st : St) :
    step (Ev.cycle s b) st = loop s b st := rfl

/-- The flush counter stays at most 9 along any trace. -/
theorem cycles_le_9 (evs : List Ev) :
    ∀ st : St, st.cycles ≤ 9 → (run evs st).cycles ≤ 9 := by
  induction evs with
  | nil => intro st h; exact h
  | cons e r ih =>
    intro st h
    rw [run_cons]
    refine ih _ ?_
    cases e with
    | tick => exact h
    | cycle s b =>
      rw [step_cycle]
      by_cases ht : st.triggered = true
      · rw [loop_cycles_of_triggered ht]
        omega
      · rw [loop_of_not_triggered (by simpa using ht)]
        exact h

/-- Counter and sync count along a canonical all-accepted trace, relative to
an arbitrary in-range starting state. -/
theorem run_traceOf_counters (l : List (ℕ × Sample)) :
    ∀ st : St, (∀ p ∈ l, 1 ≤ p.1) → st.cycles ≤ 9 →
      (run (traceOf l) st).cycles = (st.cycles + l.length) % 10 ∧
      (run (traceOf l) st).syncs = st.syncs + (st.cycles + l.length) / 10 := by
  induction l with
  | nil =>
    intro st _ h9
    simp only [traceOf, run_nil, List.length_nil]
    constructor <;> omega
  | cons p r ih =>
    obtain ⟨g, s⟩ := p
    intro st hg h9
    have hg1 : 1 ≤ g := hg (g, s) (List.mem_cons_self _ _)
    have hgr : ∀ p ∈ r, 1 ≤ p.1 := fun p hp => hg p (List.mem_cons_of_mem _ hp)
    simp only [traceOf]
    rewrite [run_append, run_cons, step_cycle]
    have hT := run_ticks_pos g hg1 st
    have htrig : (run (List.replicate g Ev.tick) st).triggered = true := by rw [hT]
    have hc : (run (List.replicate g Ev.tick) st).cycles = st.cycles := by rw [hT]
    have hsy : (run (List.replicate g Ev.tick) st).syncs = st.syncs := by rw [hT]
    have h1c := loop_cycles_of_triggered htrig s true
    have h1s := loop_syncs_of_triggered htrig s true
    rw [hc] at h1c
    rw [hsy, hc] at h1s
    have h9' : (loop s true (run (List.replicate g Ev.tick) st)).cycles ≤ 9 := by
      rw [h1c]; omega
    have IH := ih (loop s true (run (List.replicate g Ev.tick) st)) hgr h9'
    rewrite [h1c] at IH
    rewrite [IH.1, IH.2, h1s, List.length_cons]
    by_cases hc9 : 9 ≤ st.cycles
    · simp only [if_pos hc9]
      constructor <;> omega
    · simp only [if_neg hc9]
      constructor <;> omega

/-- C3: the flush counter owned by the persistence writer stays in 0..9
along every trace from startup; after `n` accepted cycles it equals
`n % 10` (so it wraps to 0 after every 10 appends, in particular right
after the append that flushed), and exactly `n / 10` physical flushes
(`measurFile.sync()` invocations) have been issued — one per 10 accepted
cycles, never more, never fewer. -/
theorem c3_flush_counter_cadence :
    (∀ evs : List Ev, (run evs st0).cycles ≤ 9) ∧
    (∀ l : List (ℕ × Sample), (∀ p ∈ l, 1 ≤ p.1) →
        (run (traceOf l) st0).cycles = l.length % 10 ∧
        (run (traceOf l) st0).syncs = l.length / 10) := by
  constructor
  · intro evs
    exact cycles_le_9 evs st0 (by norm_num [st0])
  · intro l hl
    have h := run_traceOf_counters l st0 hl (by norm_num [st0])
    simpa [st0] using h

/-- C3 witness: after 10 accepted cycles from startup the counter has
wrapped to 0 and exactly one sync has been issued. -/
theorem c3_witness :
    (run (traceOf (List.replicate 10 (1, (⟨0, 0, 0⟩ : Sample)))) st0).cycles = 0 ∧
    (run (traceOf (List.replicate 10 (1, (⟨0, 0, 0⟩ : Sample)))) st0).syncs = 1 := by
  have h := c3_flush_counter_cadence.2 (List.replicate 10 (1, (⟨0, 0, 0⟩ : Sample)))
    (by intro p hp; rw [List.eq_of_mem_replicate hp])
  simpa using h

/-! ## C1: the energy accumulator ignores the measured wall-clock delta -/

/-- Energy after a canonical all-accepted trace: one constant-divisor
contribution per processed sample, independent of the tick gaps. -/
theorem run_traceOf_energy (l : List (ℕ × Sample)) :
    ∀ st : St, (∀ p ∈ l, 1 ≤ p.1) →
      (run (traceOf l) st).energy_mWh =
        st.energy_mWh + (l.map fun p => powerOf p.2 / 36000).sum := by
  induction l with
  | nil =>
    intro st _
    simp [traceOf, run_nil]
  | cons p r ih =>
    obtain ⟨g, s⟩ := p
    intro st hg
    have hg1 : 1 ≤ g := hg (g, s) (List.mem_cons_self _ _)
    have hgr : ∀ p ∈ r, 1 ≤ p.1 := fun p hp => hg p (List.mem_cons_of_mem _ hp)
    simp only [traceOf]
    rewrite [run_append, run_cons, step_cycle]
    have hT := run_ticks_pos g hg1 st
    have htrig : (run (List.replicate g Ev.tick) st).triggered = true := by rw [hT]
    have hE : (run (List.replicate g Ev.tick) st).energy_mWh = st.energy_mWh := by
      rw [hT]
    have h1 := loop_energy_of_triggered htrig s true
    rw [hE] at h1
    rw [ih _ hgr, h1, List.map_cons, List.sum_cons]
    ring

/-- C1 (amended): the derived-metrics step accumulates energy with the
CONSTANT nominal period (100 ms) as the time factor — each cycle adds
`power_mW * 100 / 3_600_000` (the source's `power_mW / 36000.0`) — rather
than the measured wall-clock delta: over any all-accepted trace the
accumulator equals the running sum of `power_mW * 100 / 3_600_000` over the
processed samples, and two traces processing the same samples under
different tick gaps (different actual dt) yield identical energy. -/
theorem c1_energy_constant_divisor :
    (∀ (s : Sample) (st : St),
        (ina219values s st).energy_mWh = st.energy_mWh + powerOf s * 100 / 3600000) ∧
    (∀ l : List (ℕ × Sample), (∀ p ∈ l, 1 ≤ p.1) →
        (run (traceOf l) st0).energy_mWh =
          (l.map fun p => powerOf p.2 * 100 / 3600000).sum) ∧
    (∀ l₁ l₂ : List (ℕ × Sample), (∀ p ∈ l₁, 1 ≤ p.1) → (∀ p ∈ l₂, 1 ≤ p.1) →
        l₁.map Prod.snd = l₂.map Prod.snd →
        (run (traceOf l₁) st0).energy_mWh = (run (traceOf l₂) st0).energy_mWh) := by
  have hdt : ∀ q : ℚ, q * 100 / 3600000 = q / 36000 := by intro q; ring
  refine ⟨?_, ?_, ?_⟩
  · intro s st
    rw [(ina219values_fields s st).2.2.1, hdt]
  · intro l hl
    have h := run_traceOf_energy l st0 hl
    simp only [hdt]
    simpa [st0] using h
  · intro l₁ l₂ h₁ h₂ hmap
    rw [run_traceOf_energy l₁ st0 h₁, run_traceOf_energy l₂ st0 h₂]
    have hfac : ∀ l : List (ℕ × Sample),
        (l.map fun p => powerOf p.2 / 36000) =
          (l.map Prod.snd).map fun s => powerOf s / 36000 := by
      intro l; rw [List.map_map]; rfl
    rw [hfac, hfac, hmap]

/-- C1 counterexample: two consecutive accepted cycles with the same sample
(computed power 36000 mW), the first after one tick (actual dt = 100 ms),
the second after two ticks (a dropped tick: actual dt = 200 ms).  The code
accumulates 36000/36000 twice, ending at 2 mWh; the claimed wall-clock
formula `Σ power·dt/3600000` over the actual deltas gives
1 + 2 = 3 mWh. -/
theorem c1_counterexample_dt_ignored :
    (run (traceOf [(1, ⟨0, 360, 100⟩), (2, ⟨0, 360, 100⟩)]) st0).energy_mWh = 2 ∧
    specEnergy [(36000, 100), (36000, 200)] = 3 ∧
    powerOf ⟨0, 360, 100⟩ = 36000 ∧
    (2 : ℚ) ≠ 3 := by
  refine ⟨?_, ?_, ?_, by norm_num⟩
  · rw [run_traceOf_energy _ st0 (by intro p hp; fin_cases hp <;> norm_num)]
    simp [st0, powerOf]
    norm_num
  · simp [specEnergy]
    norm_num
  · norm_num [powerOf]

/-- C1 witness: the amended trace-level statement applied to one accepted
cycle with a zero-power sample. -/
theorem c1_witness :
    (run (traceOf [(1, (⟨0, 0, 0⟩ : Sample))]) st0).energy_mWh =
      ([(1, (⟨0, 0, 0⟩ : Sample))].map fun p => powerOf p.2 * 100 / 3600000).sum :=
  c1_energy_constant_divisor.2.1 [(1, ⟨0, 0, 0⟩)]
    (by intro p hp; fin_cases hp; norm_num)

/-! ## C4: CSV file lifecycle and byte-exact row format -/

/-- C4 (amended): the log file is created/truncated once at startup with the
single header line `Time,Voltage,Current\n`; each accepted cycle with the
medium present appends exactly one data row `%ld,%s,%s\n` whose voltage and
current fields are rendered by `dtostrf(value, 6, 3, buf)` — minimum field
width 6 (not 8; width 8 is the display's format), 3 fractional digits — and
the file is append-only (no step ever rewrites existing contents).
Concretely the row for elapsed = 100 ms, load voltage 5.02 V and current
100 mA is `"100, 5.020,100.000\n"`. -/
theorem c4_csv_append_format :
    (st0.log = [header] ∧ header = "Time,Voltage,Current\n") ∧
    (∀ (s : Sample) (st : St), st.triggered = true →
        (loop s true st).log =
          st.log ++ [csvLine st.elapsed (s.bus_V + s.shunt_mV / 1000) s.current_mA]) ∧
    (∀ (evs : List Ev) (st : St), ∃ t, (run evs st).log = st.log ++ t) ∧
    csvLine 100 (mkRat 251 50) 100 = "100, 5.020,100.000\n" := by
  refine ⟨⟨rfl, rfl⟩, ?_, ?_, by decide⟩
  · intro s st h
    rw [loop_log_of_triggered h s true]
    simp
  · intro evs
    induction evs with
    | nil => intro st; exact ⟨[], by simp [run_nil]⟩
    | cons e r ih =>
      intro st
      rw [run_cons]
      obtain ⟨t, ht⟩ := ih (step e st)
      cases e with
      | tick =>
        refine ⟨t, ?_⟩
        rw [ht]
        rfl
      | cycle s b =>
        by_cases htr : st.triggered = true
        · have hstep : (step (Ev.cycle s b) st).log =
              st.log ++
                if b then [csvLine st.elapsed (s.bus_V + s.shunt_mV / 1000) s.current_mA]
                else [] :=
            loop_log_of_triggered htr s b
          exact ⟨_, by rw [ht, hstep, List.append_assoc]⟩
        · have hstep : step (Ev.cycle s b) st = st :=
            loop_of_not_triggered (by simpa using htr) s b
          exact ⟨t, by rw [ht, hstep]⟩

/-- C4 witness: the append equation applied at the concrete post-tick state
with the sample (shunt 20 mV, bus 5 V, current 100 mA). -/
theorem c4_witness :
    (loop ⟨20, 5, 100⟩ true (isr st0)).log =
      (isr st0).log ++ [csvLine (isr st0).elapsed (5 + 20 / 1000) 100] :=
  c4_csv_append_format.2.1 ⟨20, 5, 100⟩ (isr st0) rfl

/-- C4 counterexample: the row the code writes for elapsed = 100 ms,
load voltage 5.02 V (= 251/50), current 100 mA is `"100, 5.020,100.000\n"`
(dtostrf width 6), not the spec's width-8 `"100,   5.020, 100.000\n"`;
and that width-6 row is exactly what one accepted cycle from startup
appends after the header. -/
theorem c4_counterexample_width_6_not_8 :
    csvLine 100 (mkRat 251 50) 100 = "100, 5.020,100.000\n" ∧
    specCsvLine 100 (mkRat 251 50) 100 = "100,   5.020, 100.000\n" ∧
    csvLine 100 (mkRat 251 50) 100 ≠ specCsvLine 100 (mkRat 251 50) 100 ∧
    (loop ⟨20, 5, 100⟩ true (isr st0)).log = [header, "100, 5.020,100.000\n"] := by
  refine ⟨by decide, by decide, by decide, ?_⟩
  rw [loop_log_of_triggered rfl ⟨20, 5, 100⟩ true]
  show [header] ++ [csvLine 100 ((5 : ℚ) + 20 / 1000) 100] = _
  have h1 : (5 : ℚ) + 20 / 1000 = mkRat 251 50 := by
    rw [Rat.mkRat_eq_div]; norm_num
  rw [h1]
  decide

/-! ## C10: CSV timestamps count timer ticks -/

/-- `elapsed` along any trace equals 100 per tick, modulo 2^32. -/
theorem run_elapsed (evs : List Ev) :
    ∀ st : St, st.elapsed < 2 ^ 32 →
      (run evs st).elapsed = (st.elapsed + 100 * countTicks evs) % 2 ^ 32 := by
  induction evs with
  | nil =>
    intro st h
    rw [run_nil]
    show st.elapsed = (st.elapsed + 100 * 0) % 2 ^ 32
    rw [Nat.mul_zero, Nat.add_zero, Nat.mod_eq_of_lt h]
  | cons e r ih =>
    intro st h
    rw [run_cons]
    cases e with
    | tick =>
      rw [step_tick]
      have h1 : (isr st).elapsed < 2 ^ 32 := by
        rw [isr_elapsed]; exact Nat.mod_lt _ (by norm_num)
      rw [ih (isr st) h1, isr_elapsed, Nat.mod_add_mod]
      have hc : countTicks (Ev.tick :: r) = countTicks r + 1 := rfl
      rw [hc]
      congr 1
      ring
    | cycle s b =>
      rw [step_cycle]
      have hc : countTicks (Ev.cycle s b :: r) = countTicks r := rfl
      by_cases htr : st.triggered = true
      · have h2 := loop_elapsed_of_triggered htr s b
        rw [ih (loop s b st) (by rw [h2]; exact h), h2, hc]
      · rw [loop_of_not_triggered (by simpa using htr) s b, ih st h, hc]

/-- Inductive invariant tying the logged timestamps to `elapsed`: as long as
the tick counter has not wrapped, every logged timestamp is a positive
multiple of 100 bounded by `elapsed`, the list is strictly increasing, and
while the flag is up every logged timestamp is strictly below `elapsed`. -/
theorem times_invariant (evs : List Ev) :
    ∀ st : St,
      st.elapsed + 100 * countTicks evs < 2 ^ 32 →
      (∀ t ∈ st.times, 0 < t ∧ 100 ∣ t ∧ t ≤ st.elapsed) →
      st.times.Pairwise (· < ·) →
      (st.triggered = true → 0 < st.elapsed ∧ ∀ t ∈ st.times, t < st.elapsed) →
      100 ∣ st.elapsed →
      (run evs st).times.Pairwise (· < ·) ∧
        ∀ t ∈ (run evs st).times, 0 < t ∧ 100 ∣ t := by
  induction evs with
  | nil =>
    intro st _ hmem hpw _ _
    rw [run_nil]
    exact ⟨hpw, fun t ht => ⟨(hmem t ht).1, (hmem t ht).2.1⟩⟩
  | cons e r ih =>
    intro st hov hmem hpw htrig hdvd
    rw [run_cons]
    cases e with
    | tick =>
      rw [step_tick]
      have hct : countTicks (Ev.tick :: r) = countTicks r + 1 := rfl
      rw [hct] at hov
      have hlt : st.elapsed + 100 < 2 ^ 32 := by omega
      have helap : (isr st).elapsed = st.elapsed + 100 := by
        rw [isr_elapsed]; exact Nat.mod_eq_of_lt hlt
      have htimes : (isr st).times = st.times := rfl
      apply ih (isr st)
      · rw [helap]; omega
      · rw [htimes, helap]
        intro t ht
        obtain ⟨h1, h2, h3⟩ := hmem t ht
        exact ⟨h1, h2, by omega⟩
      · rw [htimes]; exact hpw
      · intro _
        rw [helap, htimes]
        refine ⟨by omega, fun t ht => ?_⟩
        have := (hmem t ht).2.2
        omega
      · rw [helap]
        exact Nat.dvd_add hdvd (dvd_refl 100)
    | cycle s b =>
      rw [step_cycle]
      have hct : countTicks (Ev.cycle s b :: r) = countTicks r := rfl
      rw [hct] at hov
      by_cases htr : st.triggered = true
      · have h2 := loop_elapsed_of_triggered htr s b
        have h3 := loop_triggered_false htr s b
        obtain ⟨hpos, hlt_all⟩ := htrig htr
        cases b with
        | false =>
          have h1 := loop_times_of_triggered htr s false
          simp only [Bool.false_eq_true, if_false, List.append_nil] at h1
          apply ih (loop s false st)
          · rw [h2]; omega
          · rw [h1, h2]; exact hmem
          · rw [h1]; exact hpw
          · rw [h3]; intro hcontra; exact absurd hcontra (by simp)
          · rw [h2]; exact hdvd
        | true =>
          have h1 := loop_times_of_triggered htr s true
          simp only [if_true] at h1
          apply ih (loop s true st)
          · rw [h2]; omega
          · rw [h1, h2]
            intro t ht
            rcases List.mem_append.mp ht with hmem1 | hmem2
            · exact hmem t hmem1
            · rw [List.mem_singleton] at hmem2
              subst hmem2
              exact ⟨hpos, hdvd, le_refl _⟩
          · rw [h1]
            refine List.pairwise_append.mpr ⟨hpw, List.pairwise_singleton _ _, ?_⟩
            intro a ha b' hb'
            rw [List.mem_singleton] at hb'
            subst hb'
            exact hlt_all a ha
          · rw [h3]; intro hcontra; exact absurd hcontra (by simp)
          · rw [h2]; exact hdvd
      · rw [loop_of_not_triggered (by simpa using htr) s b]
        exact ih st hov hmem hpw htrig hdvd

/-- C10 (amended): the timestamp of every CSV record is the
interrupt-maintained counter `elapsed`, which every trace advances by
exactly 100 per timer tick (modulo 2^32) and which no other operation
writes; consequently, PROVIDED the 32-bit counter has not wrapped (fewer
than 2^32/100 ticks, about 49.7 days), every logged timestamp is a positive
multiple of 100 and the logged timestamps are strictly increasing across
consecutive records.  (At wraparound both properties fail — see the
counterexample.)  The timestamps count ticks, not a separately measured
wall clock. -/
theorem c10_timestamps_tick_counter :
    (∀ evs : List Ev, (run evs st0).elapsed = 100 * countTicks evs % 2 ^ 32) ∧
    (∀ evs : List Ev, 100 * countTicks evs < 2 ^ 32 →
        (run evs st0).times.Pairwise (· < ·) ∧
        ∀ t ∈ (run evs st0).times, 0 < t ∧ 100 ∣ t) := by
  constructor
  · intro evs
    have h := run_elapsed evs st0 (by norm_num [st0])
    simpa [st0] using h
  · intro evs hov
    apply times_invariant evs st0
    · simpa [st0] using hov
    · intro t ht
      simp [st0] at ht
    · simp [st0]
    · intro hcontra
      simp [st0] at hcontra
    · simp [st0]

/-- C10 counterexample: after 42 949 673 ticks the 32-bit counter has
wrapped: `100 * 42949673 mod 2^32 = 4`, so the accepted cycle that follows
logs the timestamp 4 — not a positive multiple of 100 (and smaller than
every earlier timestamp), refuting the unconditional claim. -/
theorem c10_counterexample_wraparound :
    (run (traceOf [(42949673, (⟨0, 0, 0⟩ : Sample))]) st0).times = [4] ∧
    ¬(100 ∣ 4) := by
  constructor
  · have hT := run_ticks_pos 42949673 (by norm_num) st0
    show (run (List.replicate 42949673 Ev.tick ++ [Ev.cycle ⟨0, 0, 0⟩ true]) st0).times
      = [4]
    rw [run_append, hT, run_cons, step_cycle, run_nil]
    rw [loop_times_of_triggered rfl ⟨0, 0, 0⟩ true]
    simp [st0]
  · decide

/-- C10 witness: the amended statement applied to the concrete one-tick,
one-cycle trace. -/
theorem c10_witness :
    (run [Ev.tick, Ev.cycle ⟨0, 0, 0⟩ true] st0).times.Pairwise (· < ·) ∧
    ∀ t ∈ (run [Ev.tick, Ev.cycle ⟨0, 0, 0⟩ true] st0).times, 0 < t ∧ 100 ∣ t :=
  c10_timestamps_tick_counter.2 [Ev.tick, Ev.cycle ⟨0, 0, 0⟩ true]
    (by norm_num [countTicks])

end DataLogger
